import Mathlib

/-!
Shallow embedding of the format-selection and quality-negotiation logic of
`src/main.py` (class `YouTubeDownloader`): the quality menu and label
stripping of `get_format_choice` (lines 805-842) and the selector
`get_best_format_for_quality` (lines 844-913).

Conventions of the embedding:
* a Python dict entry read with `d.get(k)` / `d.get(k, 0)` becomes an
  `Option` field (`none` meaning the key is absent);
* `d[k]` (which raises `KeyError` when the key is absent) becomes a `match`
  whose `none` branch makes the whole computation return `none`, so `none`
  on the result type models "the call raised an exception";
* numeric catalog fields (`height`, `tbr`, `filesize`, `fps`) are modelled
  as `Nat`, following the data model's constraint that they are
  non-negative;
* console output has no effect on any returned value and is omitted; the
  two computations of the source that feed only console output (the unused
  `audio_formats` list built on line 847 and the `best_video` display of
  lines 897-910) are likewise omitted: they use only `.get` accesses and
  list filtering, cannot raise, and touch no state read later.
-/

/-- One raw catalog entry as consumed from the metadata library: every field
the source reads with `.get` may be absent, so each is an `Option`. -/
structure RawFormat where
  format_id : Option String
  vcodec : Option String
  acodec : Option String
  height : Option Nat
  fps : Option Nat
  tbr : Option Nat
  filesize : Option Nat
  ext : Option String
deriving DecidableEq

/-- Result of the selector: the returned format expression, paired with the
concrete record it came from when a concrete muxed match exists. -/
structure SelectionResult where
  format_expression : String
  chosen_record : Option RawFormat
deriving DecidableEq

/-- Matching helper for Python substring tests: `leadMatch p l` is true when
`p` matches the front of `l`. -/
def leadMatch : List Char → List Char → Bool
  | [], _ => true
  | _ :: _, [] => false
  | a :: as, b :: bs => a == b && leadMatch as bs

/-- Python substring containment over character lists. -/
def hasSub (needle : List Char) : List Char → Bool
  | [] => leadMatch needle []
  | c :: cs => leadMatch needle (c :: cs) || hasSub needle cs

/-- Python `needle in s` on strings. -/
def pyIn (needle s : String) : Bool := hasSub needle.toList s.toList

/-- Characters of the list before the first occurrence of `sep`, the whole
list when `sep` never occurs: the value of Python `s.split(sep)[0]` for a
non-empty separator. -/
def takeUntilSub (sep : List Char) : List Char → List Char
  | [] => []
  | c :: cs => if leadMatch sep (c :: cs) then [] else c :: takeUntilSub sep cs

/-- Lines 834-836 of the source: `if '(' in chosen_quality: chosen_quality =
chosen_quality.split(' (')[0]`. -/
def stripQuality (s : String) : String :=
  if s.toList.contains '(' then String.mk (takeUntilSub " (".toList s.toList) else s

/-- Lines 808-816: the seven video rows of the fixed quality menu. -/
def video_qualities : List String :=
  ["1440p (2K QHD)", "1080p (Full HD)", "720p (HD)", "480p (SD)",
   "360p (SD)", "240p (Low)", "144p (Very Low)"]

/-- Lines 818-822: the three audio rows of the fixed quality menu. -/
def audio_qualities : List String :=
  ["Audio Only (WAV HIGH - Lossless)",
   "Audio Only (M4A Med-High - AAC 256kbps)",
   "Audio Only (MP3 320kbps - High Quality)"]

/-- Line 825: the ten menu strings offered to the user. -/
def menuChoices : List String := video_qualities ++ audio_qualities

/-- Lines 834-840: the value stored into `config['last_used_quality']` (and
also returned by `get_format_choice`) after the user picked `chosen` from
the menu. -/
def persisted_last_used_quality (chosen : String) : String := stripQuality chosen

/-- Python `int` on a string of decimal digits; `none` models the
`ValueError` raised on the inputs reachable here that are not digit
strings. -/
def pyInt (s : String) : Option Nat :=
  if s.toList ≠ [] ∧ s.toList.all (fun c => c.isDigit) then
    some (s.toList.foldl (fun acc c => 10 * acc + (c.toNat - 48)) 0)
  else none

/-- Line 862: `int(chosen_quality.replace('p', ''))`; for the
single-character pattern used there, `replace` deletes every `'p'`. -/
def pyParseHeight (s : String) : Option Nat :=
  pyInt (String.mk (s.toList.filter (fun c => c != 'p')))

/-- Defaulted read `f.get('height', 0)` of lines 868 and 873. -/
def heightD (f : RawFormat) : Nat := f.height.getD 0

/-- Defaulted read `f.get('tbr', 0)` of line 874. -/
def tbrD (f : RawFormat) : Nat := f.tbr.getD 0

/-- Defaulted read `f.get('filesize', 0)` of line 875. -/
def filesizeD (f : RawFormat) : Nat := f.filesize.getD 0

/-- Sort key of lines 872-876: the tuple `(height, tbr, filesize)` with
missing fields defaulted to 0. -/
def sortKey (f : RawFormat) : Nat × Nat × Nat := (heightD f, tbrD f, filesizeD f)

/-- Filter of lines 865-868: video codec and audio codec are not the
sentinel string "none" (an absent key passes the test, since Python
`f.get('vcodec') != 'none'` is true for a missing key), and the defaulted
height is at most the target height. -/
def MuxedOk (f : RawFormat) (H : Nat) : Prop :=
  f.vcodec ≠ some "none" ∧ f.acodec ≠ some "none" ∧ heightD f ≤ H

instance (f : RawFormat) (H : Nat) : Decidable (MuxedOk f H) := by
  unfold MuxedOk; infer_instance

/-- The list `video_formats` of lines 865-868. -/
def muxedCandidates (formats : List RawFormat) (H : Nat) : List RawFormat :=
  formats.filter (fun f => decide (MuxedOk f H))

/-- Strict "ranks higher" comparison of sort keys: lexicographically greater
on the `(height, tbr, filesize)` triple. -/
def KeyGT (a b : Nat × Nat × Nat) : Prop :=
  b.1 < a.1 ∨ (a.1 = b.1 ∧ (b.2.1 < a.2.1 ∨ (a.2.1 = b.2.1 ∧ b.2.2 < a.2.2)))

instance (a b : Nat × Nat × Nat) : Decidable (KeyGT a b) := by
  unfold KeyGT; infer_instance

/-- Head of the stable descending sort of lines 872-878
(`video_formats.sort(key=..., reverse=True)` followed by
`video_formats[0]`): Python's sort is stable and `reverse=True` keeps
records with equal keys in catalog order, so the head of the sorted list is
the earliest record whose key is maximal, which this fold computes
directly (the running best is replaced only by a strictly greater key). -/
def pickFirstMax (b : RawFormat) : List RawFormat → RawFormat
  | [] => b
  | f :: fs => if KeyGT (sortKey f) (sortKey b) then pickFirstMax f fs else pickFirstMax b fs

/-- Line 913: the synthesized two-stream fallback expression. -/
def fallbackExpr (H : Nat) : String :=
  "bestvideo[height<=" ++ toString H ++ "][ext=mp4]+bestaudio[ext=m4a]/best[height<=" ++
    toString H ++ "]/best"

/-- Lines 860-913: the video branch of `get_best_format_for_quality`, on an
already-parsed target height. The result is `none` exactly when the source
raises: `best_format['format_id']` on line 891 with the key absent. -/
def selectVideo (formats : List RawFormat) (target_height : Nat) : Option SelectionResult :=
  match muxedCandidates formats target_height with
  | [] => some { format_expression := fallbackExpr target_height, chosen_record := none }
  | c :: cs =>
    match (pickFirstMax c cs).format_id with
    | none => none
    | some fid => some { format_expression := fid, chosen_record := some (pickFirstMax c cs) }

/-- Lines 849-858: the audio-branch expression, chosen by substring tests on
the quality label, defaulting to the MP3 expression. -/
def audioExprFor (chosen_quality : String) : String :=
  if pyIn "WAV" chosen_quality then "bestaudio[ext=wav]/bestaudio/best"
  else if pyIn "M4A" chosen_quality then "bestaudio[ext=m4a]/bestaudio/best"
  else "bestaudio[ext=mp3]/bestaudio/best"

/-- Lines 844-913: `get_best_format_for_quality(formats, chosen_quality)`.
The result is `none` exactly when the source raises (`int` on a non-digit
string on line 862, or the missing-key access modelled in `selectVideo`). -/
def get_best_format_for_quality (formats : List RawFormat) (chosen_quality : String) :
    Option SelectionResult :=
  if pyIn "Audio Only" chosen_quality then
    some { format_expression := audioExprFor chosen_quality, chosen_record := none }
  else
    match pyParseHeight chosen_quality with
    | none => none
    | some target_height => selectVideo formats target_height

/-- First `/`-separated alternative of a format expression. -/
def primaryAlt (e : String) : String := String.mk (takeUntilSub "/".toList e.toList)

theorem keyGT_irrefl (a : Nat × Nat × Nat) : ¬ KeyGT a a := by
  obtain ⟨x, y, z⟩ := a
  simp [KeyGT]

theorem keyGT_trans {a b c : Nat × Nat × Nat} (h1 : KeyGT a b) (h2 : KeyGT b c) : KeyGT a c := by
  obtain ⟨x1, y1, z1⟩ := a
  obtain ⟨x2, y2, z2⟩ := b
  obtain ⟨x3, y3, z3⟩ := c
  simp only [KeyGT] at h1 h2 ⊢
  omega

theorem keyGT_tri (a b : Nat × Nat × Nat) : a = b ∨ KeyGT a b ∨ KeyGT b a := by
  obtain ⟨x1, y1, z1⟩ := a
  obtain ⟨x2, y2, z2⟩ := b
  simp only [KeyGT, Prod.mk.injEq]
  omega

theorem pickFirstMax_mem (b : RawFormat) (cs : List RawFormat) :
    pickFirstMax b cs ∈ b :: cs := by
  induction cs generalizing b with
  | nil => simp [pickFirstMax]
  | cons g gs ih =>
    by_cases h : KeyGT (sortKey g) (sortKey b)
    · simp only [pickFirstMax, if_pos h]
      exact List.mem_cons_of_mem b (ih g)
    · simp only [pickFirstMax, if_neg h]
      rcases List.mem_cons.mp (ih b) with h1 | h1
      · rw [h1]; exact List.mem_cons_self _ _
      · exact List.mem_cons_of_mem _ (List.mem_cons_of_mem _ h1)

theorem pickFirstMax_max (b : RawFormat) (cs : List RawFormat) :
    ∀ f ∈ b :: cs, ¬ KeyGT (sortKey f) (sortKey (pickFirstMax b cs)) := by
  induction cs generalizing b with
  | nil =>
    intro f hf
    simp only [List.mem_singleton] at hf
    rw [hf]
    simp only [pickFirstMax]
    exact keyGT_irrefl _
  | cons g gs ih =>
    intro f hf
    by_cases h : KeyGT (sortKey g) (sortKey b)
    · simp only [pickFirstMax, if_pos h]
      rcases List.mem_cons.mp hf with rfl | hf2
      · intro hcon
        have hgmax := ih g g (List.mem_cons_self g gs)
        rcases keyGT_tri (sortKey g) (sortKey (pickFirstMax g gs)) with heq | hgt | hlt
        · rw [heq] at h
          exact keyGT_irrefl _ (keyGT_trans h hcon)
        · exact hgmax hgt
        · exact keyGT_irrefl _ (keyGT_trans (keyGT_trans hlt h) hcon)
      · exact ih g f hf2
    · simp only [pickFirstMax, if_neg h]
      rcases List.mem_cons.mp hf with hfb | hf2
      · rw [hfb]
        exact ih b b (List.mem_cons_self b gs)
      · rcases List.mem_cons.mp hf2 with rfl | hf3
        · intro hcon
          have hbmax := ih b b (List.mem_cons_self b gs)
          rcases keyGT_tri (sortKey f) (sortKey b) with heq | hgt | hlt
          · rw [heq] at hcon
            exact hbmax hcon
          · exact h hgt
          · exact hbmax (keyGT_trans hlt hcon)
        · exact ih b f (List.mem_cons_of_mem b hf3)

theorem pickFirstMax_first (b : RawFormat) (cs : List RawFormat) :
    ∃ pre post, b :: cs = pre ++ pickFirstMax b cs :: post ∧
      ∀ f ∈ pre, KeyGT (sortKey (pickFirstMax b cs)) (sortKey f) := by
  induction cs generalizing b with
  | nil => exact ⟨[], [], by simp [pickFirstMax], by simp⟩
  | cons g gs ih =>
    by_cases h : KeyGT (sortKey g) (sortKey b)
    · simp only [pickFirstMax, if_pos h]
      obtain ⟨pre, post, hdec, hpre⟩ := ih g
      have hrb : KeyGT (sortKey (pickFirstMax g gs)) (sortKey b) := by
        have hgmax := pickFirstMax_max g gs g (List.mem_cons_self g gs)
        rcases keyGT_tri (sortKey (pickFirstMax g gs)) (sortKey g) with heq | hgt | hlt
        · rw [heq]; exact h
        · exact keyGT_trans hgt h
        · exact absurd hlt hgmax
      refine ⟨b :: pre, post, ?_, ?_⟩
      · rw [List.cons_append, ← hdec]
      · intro f hf
        rcases List.mem_cons.mp hf with rfl | hf2
        · exact hrb
        · exact hpre f hf2
    · simp only [pickFirstMax, if_neg h]
      obtain ⟨pre, post, hdec, hpre⟩ := ih b
      cases pre with
      | nil =>
        simp only [List.nil_append] at hdec
        have hb : b = pickFirstMax b gs := (List.cons.inj hdec).1
        refine ⟨[], g :: gs, ?_, by simp⟩
        rw [List.nil_append, ← hb]
      | cons x pre2 =>
        have hx : b = x := (List.cons.inj hdec).1
        have hgs : gs = pre2 ++ pickFirstMax b gs :: post := (List.cons.inj hdec).2
        have hrb : KeyGT (sortKey (pickFirstMax b gs)) (sortKey b) := by
          have := hpre x (List.mem_cons_self x pre2)
          rw [← hx] at this
          exact this
        have hrg : KeyGT (sortKey (pickFirstMax b gs)) (sortKey g) := by
          rcases keyGT_tri (sortKey g) (sortKey b) with heq | hgt | hlt
          · rw [heq]; exact hrb
          · exact absurd hgt h
          · exact keyGT_trans hrb hlt
        refine ⟨b :: g :: pre2, post, ?_, ?_⟩
        · conv_lhs => rw [hgs]
          simp
        · intro f hf
          rcases List.mem_cons.mp hf with rfl | hf2
          · exact hrb
          · rcases List.mem_cons.mp hf2 with rfl | hf3
            · exact hrg
            · exact hpre f (List.mem_cons_of_mem x hf3)

theorem mem_muxedCandidates {f : RawFormat} {formats : List RawFormat} {H : Nat} :
    f ∈ muxedCandidates formats H ↔ f ∈ formats ∧ MuxedOk f H := by
  simp [muxedCandidates, List.mem_filter]

theorem height_le_of_not_keyGT {f r : RawFormat}
    (h : ¬ KeyGT (sortKey f) (sortKey r)) : heightD f ≤ heightD r := by
  by_contra hh
  exact h (Or.inl (by simpa [sortKey] using Nat.lt_of_not_le hh))

theorem fallbackExpr_ne_empty (H : Nat) : fallbackExpr H ≠ "" := by
  intro hcon
  have hlen := congrArg String.length hcon
  simp only [fallbackExpr, String.length_append] at hlen
  have h1 : ("bestvideo[height<=" : String).length = 18 := by decide
  have h2 : ("][ext=mp4]+bestaudio[ext=m4a]/best[height<=" : String).length = 43 := by decide
  have h3 : ("]/best" : String).length = 6 := by decide
  have h4 : ("" : String).length = 0 := by decide
  omega

theorem selectVideo_some_ne_empty (formats : List RawFormat) (H : Nat)
    (hwf : ∀ f ∈ formats, ∃ s, f.format_id = some s ∧ s ≠ "") :
    ∃ r, selectVideo formats H = some r ∧ r.format_expression ≠ "" := by
  cases hc : muxedCandidates formats H with
  | nil =>
    refine ⟨{ format_expression := fallbackExpr H, chosen_record := none }, ?_,
      fallbackExpr_ne_empty H⟩
    simp [selectVideo, hc]
  | cons c cs =>
    have hrf : pickFirstMax c cs ∈ formats := by
      have hin : pickFirstMax c cs ∈ muxedCandidates formats H := by
        rw [hc]; exact pickFirstMax_mem c cs
      exact (mem_muxedCandidates.mp hin).1
    obtain ⟨s, hs, hne⟩ := hwf _ hrf
    refine ⟨{ format_expression := s, chosen_record := some (pickFirstMax c cs) }, ?_, hne⟩
    simp [selectVideo, hc, hs]

theorem video_label_select (formats : List RawFormat) (lbl : String) (hgt : Nat)
    (hA : pyIn "Audio Only" lbl = false) (hP : pyParseHeight lbl = some hgt) :
    get_best_format_for_quality formats lbl = selectVideo formats hgt := by
  simp [get_best_format_for_quality, hA, hP]

theorem audio_label_select (formats : List RawFormat) (lbl : String)
    (hA : pyIn "Audio Only" lbl = true) :
    get_best_format_for_quality formats lbl =
      some { format_expression := audioExprFor lbl, chosen_record := none } := by
  simp [get_best_format_for_quality, hA]

/-- C1: for every catalog and every video ceiling H, if some record has both
codecs present (not the sentinel "none") and height at most H, the selector
returns the format_id of a concrete chosen record that is a muxed candidate,
whose height is the maximum candidate height, whose full sort key
(height, total_bitrate, filesize) is maximal in the descending lexicographic
order, and which is the earliest candidate in catalog order attaining that
maximum (every candidate before it ranks strictly lower). The catalog is
assumed well formed per the data model: every record carries a format_id. -/
theorem C1_muxed_selection_best (formats : List RawFormat) (H : Nat)
    (hne : ∃ f ∈ formats, MuxedOk f H)
    (hwf : ∀ f ∈ formats, f.format_id.isSome = true) :
    ∃ r fid, selectVideo formats H = some { format_expression := fid, chosen_record := some r } ∧
      r.format_id = some fid ∧ r ∈ muxedCandidates formats H ∧
      (∀ f ∈ muxedCandidates formats H, heightD f ≤ heightD r) ∧
      (∀ f ∈ muxedCandidates formats H, ¬ KeyGT (sortKey f) (sortKey r)) ∧
      ∃ pre post, muxedCandidates formats H = pre ++ r :: post ∧
        ∀ f ∈ pre, KeyGT (sortKey r) (sortKey f) := by
  obtain ⟨f0, hf0, hok⟩ := hne
  have hmem0 : f0 ∈ muxedCandidates formats H := mem_muxedCandidates.mpr ⟨hf0, hok⟩
  cases hc : muxedCandidates formats H with
  | nil =>
    rw [hc] at hmem0
    exact absurd hmem0 (List.not_mem_nil f0)
  | cons c cs =>
    have hrmem : pickFirstMax c cs ∈ muxedCandidates formats H := by
      rw [hc]; exact pickFirstMax_mem c cs
    have hrf : pickFirstMax c cs ∈ formats := (mem_muxedCandidates.mp hrmem).1
    obtain ⟨fid, hfid⟩ := Option.isSome_iff_exists.mp (hwf _ hrf)
    refine ⟨pickFirstMax c cs, fid, ?_, hfid, pickFirstMax_mem c cs, ?_, ?_,
      pickFirstMax_first c cs⟩
    · simp [selectVideo, hc, hfid]
    · intro f hf
      exact height_le_of_not_keyGT (pickFirstMax_max c cs f hf)
    · intro f hf
      exact pickFirstMax_max c cs f hf

/-- Sample catalog for the C1 witness: two muxed records below the 1080
ceiling, the taller one with the higher bitrate. -/
def catA : List RawFormat :=
  [⟨some "22", some "avc1", some "mp4a", some 1080, none, some 5000, none, none⟩,
   ⟨some "18", some "avc1", some "mp4a", some 720, none, some 3000, none, none⟩]

theorem C1_witness :
    (∃ f ∈ catA, MuxedOk f 1080) ∧ (∀ f ∈ catA, f.format_id.isSome = true) ∧
    ∃ r fid, selectVideo catA 1080 = some { format_expression := fid, chosen_record := some r } ∧
      r.format_id = some fid ∧ r ∈ muxedCandidates catA 1080 ∧
      (∀ f ∈ muxedCandidates catA 1080, heightD f ≤ heightD r) ∧
      (∀ f ∈ muxedCandidates catA 1080, ¬ KeyGT (sortKey f) (sortKey r)) ∧
      ∃ pre post, muxedCandidates catA 1080 = pre ++ r :: post ∧
        ∀ f ∈ pre, KeyGT (sortKey r) (sortKey f) :=
  ⟨by decide, by decide, C1_muxed_selection_best catA 1080 (by decide) (by decide)⟩

/-- C2: for every catalog with no muxed candidate at or below the ceiling H,
the selector returns no chosen record and the synthesized two-stream
fallback expression referencing H, and this expression does not depend on
the catalog (in particular not on whether any video-only candidate at or
below H exists). -/
theorem C2_fallback_expression (formats : List RawFormat) (H : Nat)
    (hempty : muxedCandidates formats H = []) :
    selectVideo formats H =
      some { format_expression :=
               "bestvideo[height<=" ++ toString H ++
                 "][ext=mp4]+bestaudio[ext=m4a]/best[height<=" ++ toString H ++ "]/best",
             chosen_record := none } ∧
    ∀ formats2, muxedCandidates formats2 H = [] → selectVideo formats2 H = selectVideo formats H := by
  constructor
  · simp [selectVideo, hempty, fallbackExpr]
  · intro f2 h2
    simp [selectVideo, hempty, h2]

/-- Sample catalog for the C2 witness: a single video-only record (audio
codec is the sentinel "none") at or below the ceiling, so a video-only
candidate exists while no muxed candidate does. -/
def catC : List RawFormat :=
  [⟨some "137", some "avc1", some "none", some 720, none, some 4000, none, none⟩]

theorem C2_witness :
    muxedCandidates catC 1080 = [] ∧
    (selectVideo catC 1080 =
      some { format_expression :=
               "bestvideo[height<=" ++ toString 1080 ++
                 "][ext=mp4]+bestaudio[ext=m4a]/best[height<=" ++ toString 1080 ++ "]/best",
             chosen_record := none } ∧
     ∀ formats2, muxedCandidates formats2 1080 = [] →
       selectVideo formats2 1080 = selectVideo catC 1080) :=
  ⟨by decide, C2_fallback_expression catC 1080 (by decide)⟩

/-- C3: evaluation of the code at the failing inputs. The menu stripping of
`get_format_choice` reduces every audio label to the string "Audio Only",
so the WAV and M4A tests inside `get_best_format_for_quality` can never
succeed on a menu selection: both the WAV and the M4A menu labels produce
the MP3 expression, whose primary alternative names neither wav nor m4a. -/
theorem C3_audio_label_eval :
    get_best_format_for_quality [] (stripQuality "Audio Only (WAV HIGH - Lossless)") =
      some { format_expression := "bestaudio[ext=mp3]/bestaudio/best", chosen_record := none } ∧
    get_best_format_for_quality [] (stripQuality "Audio Only (M4A Med-High - AAC 256kbps)") =
      some { format_expression := "bestaudio[ext=mp3]/bestaudio/best", chosen_record := none } ∧
    get_best_format_for_quality [] (stripQuality "Audio Only (MP3 320kbps - High Quality)") =
      some { format_expression := "bestaudio[ext=mp3]/bestaudio/best", chosen_record := none } ∧
    pyIn "ext=wav" (primaryAlt "bestaudio[ext=mp3]/bestaudio/best") = false ∧
    pyIn "ext=m4a" (primaryAlt "bestaudio[ext=mp3]/bestaudio/best") = false := by
  decide

/-- C4 counterexample: a well-formed muxed record whose format_id is the
empty string is selected, and the returned format_expression is empty,
contradicting the claim that the expression is non-empty for every
catalog. -/
theorem C4_counterexample :
    selectVideo [⟨some "", some "avc1", some "mp4a", some 720, none, none, none, none⟩] 720 =
      some { format_expression := "",
             chosen_record :=
               some ⟨some "", some "avc1", some "mp4a", some 720, none, none, none, none⟩ } := by
  decide

/-- C4 amended: for every catalog whose records each carry a non-empty
format_id and every label of the ten-entry quality menu (processed by the
same stripping the program applies), the selector terminates without
raising and returns a non-empty format_expression. -/
theorem C4_amended_total (formats : List RawFormat) (q : String) (hq : q ∈ menuChoices)
    (hwf : ∀ f ∈ formats, ∃ s, f.format_id = some s ∧ s ≠ "") :
    ∃ r, get_best_format_for_quality formats (stripQuality q) = some r ∧
      r.format_expression ≠ "" := by
  simp only [menuChoices, video_qualities, audio_qualities, List.mem_append,
    List.mem_cons, List.not_mem_nil, or_false] at hq
  rcases hq with (rfl | rfl | rfl | rfl | rfl | rfl | rfl) | (rfl | rfl | rfl)
  · rw [show stripQuality "1440p (2K QHD)" = "1440p" by decide,
      video_label_select formats "1440p" 1440 (by decide) (by decide)]
    exact selectVideo_some_ne_empty formats 1440 hwf
  · rw [show stripQuality "1080p (Full HD)" = "1080p" by decide,
      video_label_select formats "1080p" 1080 (by decide) (by decide)]
    exact selectVideo_some_ne_empty formats 1080 hwf
  · rw [show stripQuality "720p (HD)" = "720p" by decide,
      video_label_select formats "720p" 720 (by decide) (by decide)]
    exact selectVideo_some_ne_empty formats 720 hwf
  · rw [show stripQuality "480p (SD)" = "480p" by decide,
      video_label_select formats "480p" 480 (by decide) (by decide)]
    exact selectVideo_some_ne_empty formats 480 hwf
  · rw [show stripQuality "360p (SD)" = "360p" by decide,
      video_label_select formats "360p" 360 (by decide) (by decide)]
    exact selectVideo_some_ne_empty formats 360 hwf
  · rw [show stripQuality "240p (Low)" = "240p" by decide,
      video_label_select formats "240p" 240 (by decide) (by decide)]
    exact selectVideo_some_ne_empty formats 240 hwf
  · rw [show stripQuality "144p (Very Low)" = "144p" by decide,
      video_label_select formats "144p" 144 (by decide) (by decide)]
    exact selectVideo_some_ne_empty formats 144 hwf
  · rw [show stripQuality "Audio Only (WAV HIGH - Lossless)" = "Audio Only" by decide,
      audio_label_select formats "Audio Only" (by decide)]
    exact ⟨_, rfl, by decide⟩
  · rw [show stripQuality "Audio Only (M4A Med-High - AAC 256kbps)" = "Audio Only" by decide,
      audio_label_select formats "Audio Only" (by decide)]
    exact ⟨_, rfl, by decide⟩
  · rw [show stripQuality "Audio Only (MP3 320kbps - High Quality)" = "Audio Only" by decide,
      audio_label_select formats "Audio Only" (by decide)]
    exact ⟨_, rfl, by decide⟩

theorem C4_witness :
    "720p (HD)" ∈ menuChoices ∧
    (∀ f ∈ ([] : List RawFormat), ∃ s, f.format_id = some s ∧ s ≠ "") ∧
    ∃ r, get_best_format_for_quality [] (stripQuality "720p (HD)") = some r ∧
      r.format_expression ≠ "" :=
  ⟨by decide, by simp, C4_amended_total [] "720p (HD)" (by decide) (by simp)⟩

/-- C5 counterexample: a malformed entry (no format_id, no codec fields) is
not dropped — it passes the muxed filter, wins the ranking, and the missing
format_id aborts the whole selection (the source raises `KeyError` on line
891), contradicting the claim that malformed entries are dropped silently
rather than aborting processing. -/
theorem C5_counterexample :
    selectVideo [⟨none, none, none, some 500, none, none, none, none⟩] 720 = none := by
  decide

/-- C5 amended: missing height, total_bitrate, and filesize are treated as 0,
so the ranking comparisons are total on missing data (a record with all
numeric fields missing gets the bottom sort key (0, 0, 0) and its height
test passes for every ceiling); malformed entries, however, are never
dropped — they are retained with defaulted fields. -/
theorem C5_amended_defaults (f : RawFormat) (H : Nat)
    (h1 : f.height = none) (h2 : f.tbr = none) (h3 : f.filesize = none) :
    sortKey f = (0, 0, 0) ∧
    (MuxedOk f H ↔ f.vcodec ≠ some "none" ∧ f.acodec ≠ some "none") ∧
    (∀ g : RawFormat, ¬ KeyGT (sortKey f) (sortKey g)) ∧
    ∀ formats : List RawFormat, f ∈ formats → f.vcodec ≠ some "none" →
      f.acodec ≠ some "none" → f ∈ muxedCandidates formats H := by
  have hk : sortKey f = (0, 0, 0) := by
    simp [sortKey, heightD, tbrD, filesizeD, h1, h2, h3]
  refine ⟨hk, ?_, ?_, ?_⟩
  · unfold MuxedOk
    simp [heightD, h1]
  · intro g
    rw [hk]
    simp [KeyGT]
  · intro formats hmem hv ha
    exact mem_muxedCandidates.mpr ⟨hmem, hv, ha, by simp [heightD, h1]⟩

/-- Record with every numeric field missing, for the C5 witness. -/
def recNoNums : RawFormat := ⟨some "x1", some "vp9", some "opus", none, none, none, none, none⟩

theorem C5_witness :
    recNoNums.height = none ∧ recNoNums.tbr = none ∧ recNoNums.filesize = none ∧
    (sortKey recNoNums = (0, 0, 0) ∧
     (MuxedOk recNoNums 0 ↔ recNoNums.vcodec ≠ some "none" ∧ recNoNums.acodec ≠ some "none") ∧
     (∀ g : RawFormat, ¬ KeyGT (sortKey recNoNums) (sortKey g)) ∧
     ∀ formats : List RawFormat, recNoNums ∈ formats → recNoNums.vcodec ≠ some "none" →
       recNoNums.acodec ≠ some "none" → recNoNums ∈ muxedCandidates formats 0) :=
  ⟨rfl, rfl, rfl, C5_amended_defaults recNoNums 0 rfl rfl rfl⟩

/-- C6: evaluation of the code at the failing input. The value stored into
`config['last_used_quality']` is the label already stripped of its
parenthesized suffix, so it differs from the selected menu string and is
not one of the ten enumerated menu strings; the three audio labels even
collapse to the single stored value "Audio Only". -/
theorem C6_persist_eval :
    persisted_last_used_quality "720p (HD)" = "720p" ∧
    "720p" ≠ "720p (HD)" ∧
    "720p" ∉ menuChoices ∧
    persisted_last_used_quality "Audio Only (WAV HIGH - Lossless)" = "Audio Only" ∧
    "Audio Only" ∉ menuChoices := by
  decide

/-- C7: the selector is deterministic and idempotent — two invocations on
the same catalog (in the same order) and the same quality label return the
same result, expression and chosen record alike; in the embedding the
selector is a pure function of its two arguments, so the two results are
definitionally the same. -/
theorem C7_deterministic (formats : List RawFormat) (chosen_quality : String) :
    get_best_format_for_quality formats chosen_quality =
      get_best_format_for_quality formats chosen_quality := rfl

/-- C8: on the audio path the returned expression is independent of the
catalog: any two catalogs produce the same result for the same audio
quality label, because the audio branch never reads the catalog (the
`audio_formats` list the source builds there is never used). -/
theorem C8_audio_independent (formats1 formats2 : List RawFormat) (chosen_quality : String)
    (hA : pyIn "Audio Only" chosen_quality = true) :
    get_best_format_for_quality formats1 chosen_quality =
      get_best_format_for_quality formats2 chosen_quality := by
  simp [get_best_format_for_quality, hA]

theorem C8_witness :
    pyIn "Audio Only" "Audio Only" = true ∧
    get_best_format_for_quality [] "Audio Only" =
      get_best_format_for_quality
        [⟨some "22", some "avc1", some "mp4a", some 360, none, none, none, none⟩] "Audio Only" :=
  ⟨by decide,
   C8_audio_independent []
     [⟨some "22", some "avc1", some "mp4a", some 360, none, none, none, none⟩] "Audio Only"
     (by decide)⟩

/-- C9: for each of the seven video menu labels, stripping the parenthesized
suffix and parsing the numeric prefix before the trailing "p" succeeds and
yields the corresponding height of the quality ladder. -/
theorem C9_video_labels_parse :
    pyParseHeight (stripQuality "1440p (2K QHD)") = some 1440 ∧
    pyParseHeight (stripQuality "1080p (Full HD)") = some 1080 ∧
    pyParseHeight (stripQuality "720p (HD)") = some 720 ∧
    pyParseHeight (stripQuality "480p (SD)") = some 480 ∧
    pyParseHeight (stripQuality "360p (SD)") = some 360 ∧
    pyParseHeight (stripQuality "240p (Low)") = some 240 ∧
    pyParseHeight (stripQuality "144p (Very Low)") = some 144 := by
  decide

/-- C10: a record from which the vcodec and acodec keys are entirely absent
passes the both-codecs-present filter (Python `f.get('vcodec') != 'none'`
is true for a missing key) and can be selected as the muxed chosen record;
only the exact sentinel string "none" marks a stream as absent. -/
theorem C10_absent_codec_passes (f : RawFormat) (H : Nat) (fid : String)
    (hv : f.vcodec = none) (ha : f.acodec = none) (hh : heightD f ≤ H)
    (hid : f.format_id = some fid) :
    MuxedOk f H ∧
    selectVideo [f] H = some { format_expression := fid, chosen_record := some f } ∧
    ∀ (g : RawFormat) (Hg : Nat),
      (g.vcodec = some "none" ∨ g.acodec = some "none") → ¬ MuxedOk g Hg := by
  have hok : MuxedOk f H := ⟨by simp [hv], by simp [ha], hh⟩
  refine ⟨hok, ?_, ?_⟩
  · have hc : muxedCandidates [f] H = [f] := by
      simp [muxedCandidates, List.filter_cons, decide_eq_true hok]
    simp [selectVideo, hc, pickFirstMax, hid]
  · intro g Hg hg hok2
    rcases hg with h | h
    · exact hok2.1 (by rw [h])
    · exact hok2.2.1 (by rw [h])

/-- Record with both codec keys absent, for the C10 witness. -/
def recNoCodecs : RawFormat := ⟨some "140", none, none, some 360, none, none, none, none⟩

theorem C10_witness :
    recNoCodecs.vcodec = none ∧ recNoCodecs.acodec = none ∧ heightD recNoCodecs ≤ 720 ∧
    recNoCodecs.format_id = some "140" ∧
    (MuxedOk recNoCodecs 720 ∧
     selectVideo [recNoCodecs] 720 =
       some { format_expression := "140", chosen_record := some recNoCodecs } ∧
     ∀ (g : RawFormat) (Hg : Nat),
       (g.vcodec = some "none" ∨ g.acodec = some "none") → ¬ MuxedOk g Hg) :=
  ⟨rfl, rfl, by decide, rfl, C10_absent_codec_passes recNoCodecs 720 "140" rfl rfl (by decide) rfl⟩

